import Mathlib

/-!
Shallow embedding of `app.py` (Meilisearch backup/restore tool).

The program talks to a remote Meilisearch instance over HTTP.  The embedding
models the remote service as a pure oracle: each HTTP endpoint the program
calls becomes a field of a server structure, returning the decoded response
(an `Option`/custom sum distinguishes non-success status codes).  The
program's control flow is translated function by function from the source;
the requests a run issues are collected into a trace of `Event`s so that
properties about which requests are (or are not) made can be stated.
-/

namespace Dochub

/-- JSON-compatible field values inside a document (`doc[field]` in the
source).  Documents are copied verbatim except for the two designated
normalization steps, so only the constructors those steps need are spelled
out; `str` carries arbitrary opaque payloads. -/
inductive DVal where
  | str (s : String)
  | null
  | obj (fields : List (String × DVal))

/-- A document: a JSON object, i.e. an association list of fields
(Python `dict`; insertion of a fresh key appends at the end). -/
abbrev Doc := List (String × DVal)

/-- `k in d` on a Python dict. -/
def assocHas {α : Type} (d : List (String × α)) (k : String) : Bool :=
  d.any (fun kv => kv.1 == k)

/-- `d.get(k)` / `d[k]` on a Python dict. -/
def assocGet {α : Type} (d : List (String × α)) (k : String) : Option α :=
  (d.find? (fun kv => kv.1 == k)).map (fun kv => kv.2)

/-- Values of a settings category (`settings[setting_type]` in the source):
a JSON value whose Python truthiness the fallback path tests. -/
inductive SVal where
  | arr (items : List String)
  | obj (entries : List (String × String))
  | strv (s : String)
  | null

/-- Python truthiness of a settings value (`if ... and settings[setting_type]:`). -/
def SVal.truthy : SVal → Bool
  | .arr l => !l.isEmpty
  | .obj l => !l.isEmpty
  | .strv s => !s.isEmpty
  | .null => false

/-- A settings object: JSON object keyed by category name. -/
abbrev Settings := List (String × SVal)

/-- Python `needle in hay` on strings (substring test), used for
`'primary_key' in str(task['error'])` and `"meilisearch_backup" in item`. -/
def charsLead : List Char → List Char → Bool
  | [], _ => true
  | _ :: _, [] => false
  | a :: as, b :: bs => a == b && charsLead as bs

def charsOccur (needle : List Char) : List Char → Bool
  | [] => needle.isEmpty
  | c :: rest => charsLead needle (c :: rest) || charsOccur needle rest

def strContains (hay needle : String) : Bool :=
  charsOccur needle.toList hay.toList

/-- The index descriptor returned by `GET /indexes` and stored verbatim in
`info.json`; restore reads only `uid` and `primaryKey` from it. -/
structure IndexInfo where
  uid : String
  primaryKey : Option String

/-- Python truthiness of the `primaryKey` value (`if primary_key:`). -/
def pkTruthy : Option String → Bool
  | some s => !s.isEmpty
  | none => false

/-! ## Document paginator (`backup_meilisearch`, lines 64-106) -/

/-- The decoded body of one `GET .../documents` page response
(`docs_response.json()` plus the `isinstance` checks at lines 85-94). -/
inductive PageBody where
  | jlist (docs : List Doc)
  | jdictWithResults (results : List Doc)
  | jdictNoResults
  | jother
  | badJson

/-- One page response: non-200 status, or 200 with a body. -/
inductive PageResp where
  | httpErr
  | ok (body : PageBody)

/-- Shape normalization at lines 82-94: an envelope object yields its
`results` field, a bare list yields itself, anything else stops pagination
(`break`). -/
def normalizePage : PageBody → Option (List Doc)
  | .jlist docs => some docs
  | .jdictWithResults results => some results
  | .jdictNoResults => none
  | .jother => none
  | .badJson => none

/-- The `while True` pagination loop (lines 69-106), fuel-indexed.  `fetch`
answers `GET .../documents?offset&limit=1000` at a given offset.  Returns
the accumulated documents together with the list of offsets requested.
On a non-200 response or an unrecognized body the documents gathered so
far are returned (the Python `break` keeps `all_documents`). -/
def paginateAux (fetch : Nat → PageResp) : Nat → Nat → List Doc × List Nat
  | 0, _ => ([], [])
  | fuel + 1, offset =>
    match fetch offset with
    | .httpErr => ([], [offset])
    | .ok body =>
      match normalizePage body with
      | none => ([], [offset])
      | some docs =>
        if docs.isEmpty then ([], [offset])
        else if docs.length < 1000 then (docs, [offset])
        else
          let rest := paginateAux fetch fuel (offset + 1000)
          (docs ++ rest.1, offset :: rest.2)

/-- Full pagination for one collection, starting at offset 0. -/
def paginate (fetch : Nat → PageResp) (fuel : Nat) : List Doc × List Nat :=
  paginateAux fetch fuel 0

/-- A server whose document pages are drawn from the fixed list `L`
(page at `offset` = `L[offset : offset+1000]`), every request succeeding. -/
def serverOf (L : List Doc) : Nat → PageResp :=
  fun offset => .ok (.jlist ((L.drop offset).take 1000))

/-- A response that stops pagination: non-200, or 200 with a body the
normalizer rejects. -/
def stopsResp : PageResp → Prop
  | .httpErr => True
  | .ok body => normalizePage body = none

/-- A server serving pages of `L` below offset `1000*m` and answering the
stopping response `b` from there on (a mid-run failure at page `m`). -/
def serverStopAt (L : List Doc) (m : Nat) (b : PageResp) : Nat → PageResp :=
  fun offset => if offset < 1000 * m then serverOf L offset else b

/-! ## Backup orchestrator (`backup_meilisearch`) -/

/-- The remote service as seen by `backup_meilisearch`: one field per
endpoint it calls.  `none` models a non-200 status code. -/
structure BServer where
  indexes? : Option (List IndexInfo)
  settings : String → Option Settings
  stats : String → Option Nat
  docsPage : String → Nat → PageResp

/-- The three per-collection files written into the archive directory
`output_dir / uid`: `settings.json` (written only when the settings fetch
returned 200, lines 47-50), `documents.json` (always, line 110) and
`info.json` (always, line 114).  The stats fetch (lines 53-62) only feeds
the log, so it does not appear here. -/
structure BackupEntry where
  settings? : Option Settings
  documents : List Doc
  info : IndexInfo

/-- Per-collection body of the backup loop (lines 34-115). -/
def entryFor (srv : BServer) (fuel : Nat) (idx : IndexInfo) : BackupEntry :=
  { settings? := srv.settings idx.uid
    documents := (paginate (srv.docsPage idx.uid) fuel).1
    info := idx }

/-- `backup_meilisearch` (lines 11-128): `none` models the early
`return None, ...` when the collection listing is non-200 (lines 26-28);
otherwise one archive directory per returned index. -/
def backup_meilisearch (srv : BServer) (fuel : Nat) :
    Option (List (String × BackupEntry)) :=
  match srv.indexes? with
  | none => none
  | some idxs => some (idxs.map (fun idx => (idx.uid, entryFor srv fuel idx)))

/-! ## Task waiter (`wait_for_task`, lines 130-141) -/

/-- The task record returned by `GET /tasks/{id}`: its `status` string and,
when the `'error'` key is present, the string rendering of its value
(`str(task['error'])`). -/
structure MTask where
  status : String
  error? : Option String

/-- `task['status'] in ['succeeded', 'failed', 'canceled']` (line 136). -/
def terminalStatus (s : String) : Bool :=
  s == "succeeded" || s == "failed" || s == "canceled"

/-- `wait_for_task` (lines 130-141), fuel-indexed.  `poll k` is the decoded
result of the `k`-th status query (`none` = non-200).  The outer `Option`
is `none` only when the fuel runs out before the loop returns; `some r`
means the Python function returned `r` (where `r = none` is the
`return None` on a failed status query, line 139). -/
def wait_for_task (poll : Nat → Option MTask) : Nat → Nat → Option (Option MTask)
  | 0, _ => none
  | fuel + 1, k =>
    match poll k with
    | some t => if terminalStatus t.status then some (some t) else wait_for_task poll fuel (k + 1)
    | none => some none

/-! ## Restore orchestrator (`restore_meilisearch`, lines 143-588)

The restore path interleaves HTTP requests with `wait_for_task` calls.  In
the embedding the waiter's outcome is abstracted by the oracle field
`wait : Option Nat → Option MTask`, matching `wait_for_task`'s codomain
(`None` on a failed status query, otherwise the terminal record); the
argument is the `.get('taskUid')` value the source passes, which may be
absent. -/

/-- The remote service as seen by `restore_meilisearch`.  For each mutating
endpoint, `none` models a status code outside the accepted set and
`some tid?` a success whose body's `.get('taskUid')` is `tid?`. -/
structure RServer where
  checkIndex : String → Nat
  deleteIndex : String → Option (Option Nat)
  createIndex : String → Option String → Option (Option Nat)
  patchAllSettings : String → Settings → Option (Option Nat)
  putSetting : String → String → SVal → Option (Option Nat)
  patchIndexPk : String → String → Option (Option Nat)
  postDocuments : String → List Doc → Option (Option Nat)
  wait : Option Nat → Option MTask

/-- `task and task['status'] == 'succeeded'` after a `wait_for_task` call. -/
def waitSucceeded (srv : RServer) (tid? : Option Nat) : Bool :=
  match srv.wait tid? with
  | some t => t.status == "succeeded"
  | none => false

/-- The requests restore issues, in order (waiter polls are not recorded;
they never mutate the service). -/
inductive Event where
  | processIndex (uid : String)
  | checkIndex (uid : String)
  | deleteIndex (uid : String)
  | createIndex (uid : String) (pk : Option String)
  | patchAllSettings (uid : String) (s : Settings)
  | putSetting (uid : String) (category : String) (v : SVal)
  | patchIndexPk (uid : String) (pk : String)
  | postDocuments (uid : String) (batch : List Doc)

/-- Discriminator for document-upload requests in a trace. -/
def isPostEvent : Event → Bool
  | .postDocuments _ _ => true
  | _ => false

/-- The collection a request addresses. -/
def eventUid : Event → String
  | .processIndex uid => uid
  | .checkIndex uid => uid
  | .deleteIndex uid => uid
  | .createIndex uid _ => uid
  | .patchAllSettings uid _ => uid
  | .putSetting uid _ _ => uid
  | .patchIndexPk uid _ => uid
  | .postDocuments uid _ => uid

/-- One extracted collection directory: `info.json`, `settings.json` and
`documents.json`, each possibly absent (the source tests `.exists()` for
each). -/
structure ArchiveEntry where
  info? : Option IndexInfo
  settings? : Option Settings
  docs? : Option (List Doc)

/-- The fixed fallback category list (lines 313-321). -/
def settingTypes : List String :=
  ["displayedAttributes", "filterableAttributes", "sortableAttributes",
   "rankingRules", "stopWords", "synonyms", "distinctAttribute"]

/-- The per-category fallback loop (lines 323-347): each present, truthy
category is `PUT` individually; the response and task outcome are only
logged, so every category is attempted regardless of earlier failures. -/
def applySettingFallback (srv : RServer) (uid : String) (settings : Settings) :
    List String → List Event
  | [] => []
  | t :: rest =>
    let tail := applySettingFallback srv uid settings rest
    match assocGet settings t with
    | some v =>
      if v.truthy then
        Event.putSetting uid t v ::
        (match srv.putSetting uid t v with
         | some _ => tail
         | none => tail)
      else tail
    | none => tail

/-- Settings restore for one pass-1 collection (lines 282-349): bulk
`PATCH .../settings`; only when its status is outside {200, 202} does the
per-category fallback run. -/
def restoreSettingsPass1 (srv : RServer) (uid : String) (settings? : Option Settings) :
    List Event :=
  match settings? with
  | none => []
  | some settings =>
    Event.patchAllSettings uid settings ::
    (match srv.patchAllSettings uid settings with
     | some _ => []
     | none => applySettingFallback srv uid settings settingTypes)

/-- Lines 362-364: a page document missing `id` but carrying
`_meilisearch_id` gets `id` set to that value (Python key insertion
appends); any other document is untouched. -/
def fixPageDoc (d : Doc) : Doc :=
  match assocGet d "_meilisearch_id" with
  | some v => if assocHas d "id" then d else d ++ [("id", v)]
  | none => d

/-- `documents[i:i+batch_size]` slicing over `range(0, len, batch_size)`. -/
def chunksOf {α : Type} (n : Nat) : List α → List (List α)
  | [] => []
  | x :: xs =>
    if h : n = 0 then []
    else (x :: xs).take n :: chunksOf n ((x :: xs).drop n)
termination_by l => l.length
decreasing_by
  simp only [List.length_drop, List.length_cons]
  exact Nat.sub_lt (Nat.succ_pos _) (Nat.pos_of_ne_zero h)

/-- `'primary_key' in str(task['error'])` guarded by `'error' in task`
(line 392's last two conjuncts). -/
def errorMentionsPk (t : MTask) : Bool :=
  match t.error? with
  | some es => strContains es "primary_key"
  | none => false

/-- Upload of one pass-1 batch (lines 372-433): `POST` the batch, wait on
its task; when the task ends non-succeeded, and only for uid `page` with a
task record whose error mentions `primary_key`, `PATCH` the index to force
primary key `id`, wait, and on success `POST` the same batch once more
(the retry's own outcome is only logged). -/
def postBatchPass1 (srv : RServer) (uid : String) (batch : List Doc) : List Event :=
  Event.postDocuments uid batch ::
  (match srv.postDocuments uid batch with
   | none => []
   | some tid? =>
     match tid? with
     | none => []
     | some tid =>
       match srv.wait (some tid) with
       | none => []
       | some t =>
         if t.status == "succeeded" then []
         else if uid == "page" && errorMentionsPk t then
           Event.patchIndexPk uid "id" ::
           (match srv.patchIndexPk uid "id" with
            | none => []
            | some tid2? =>
              if waitSucceeded srv tid2? then
                [Event.postDocuments uid batch]
              else [])
         else [])

/-- Document restore for one pass-1 collection (lines 351-440): for uid
`page` every document is first run through `fixPageDoc`, then the list is
posted in batches of 1000; each batch is attempted regardless of earlier
batches' outcomes. -/
def restoreDocsPass1 (srv : RServer) (uid : String) (docs? : Option (List Doc)) :
    List Event :=
  match docs? with
  | none => []
  | some docs =>
    if docs.isEmpty then []
    else
      let docs2 := if uid == "page" then docs.map fixPageDoc else docs
      (chunksOf 1000 docs2).flatMap (postBatchPass1 srv uid)

/-- Settings then documents for one pass-1 collection. -/
def pass1SettingsDocs (srv : RServer) (uid : String) (e : ArchiveEntry) : List Event :=
  restoreSettingsPass1 srv uid e.settings? ++ restoreDocsPass1 srv uid e.docs?

/-- The `primaryKey` field of an absent pass-1 collection's creation
payload (lines 214-229 when `info.json` exists, 251-257 when it does not):
taken from `info.json`, with the `page` collection forced to `id` when the
recorded key is falsy, and omitted when falsy. -/
def pass1Pk (uid : String) (e : ArchiveEntry) : Option String :=
  match e.info? with
  | some info =>
    let pk1 := if uid == "page" && !pkTruthy info.primaryKey then some "id"
               else info.primaryKey
    if pkTruthy pk1 then pk1 else none
  | none => if uid == "page" then some "id" else none

/-- Index creation for an absent pass-1 collection (lines 213-278): a
creation failure (HTTP or task) skips the collection (`continue`). -/
def pass1Create (srv : RServer) (uid : String) (e : ArchiveEntry) : List Event :=
  Event.createIndex uid (pass1Pk uid e) ::
  (match srv.createIndex uid (pass1Pk uid e) with
   | none => []
   | some tid? => if waitSucceeded srv tid? then pass1SettingsDocs srv uid e else [])

/-- Lines 213 and 279-280: a 404 check leads to creation, any other status
is treated as "already exists" and proceeds straight to settings. -/
def pass1AfterCheck (srv : RServer) (uid : String) (e : ArchiveEntry) (check : Nat) :
    List Event :=
  if check == 404 then pass1Create srv uid e else pass1SettingsDocs srv uid e

/-- The pass-1 loop body for one collection directory (lines 175-440):
`documents` is skipped; an existing `page` collection is deleted first
(deletion failure skips the collection, success proceeds as if the check
had returned 404, line 210). -/
def restoreIndexPass1 (srv : RServer) (uid : String) (e : ArchiveEntry) : List Event :=
  Event.processIndex uid ::
  (if uid == "documents" then []
   else
    Event.checkIndex uid ::
    (let check := srv.checkIndex uid
     if uid == "page" && check == 200 then
       Event.deleteIndex uid ::
       (match srv.deleteIndex uid with
        | none => []
        | some tid? =>
          if waitSucceeded srv tid? then pass1AfterCheck srv uid e 404 else [])
     else pass1AfterCheck srv uid e check))

/-- Pass 1 over every extracted collection directory, in listing order. -/
def restorePass1 (srv : RServer) (archive : List (String × ArchiveEntry)) : List Event :=
  archive.flatMap (fun de => restoreIndexPass1 srv de.1 de.2)

/-- Lines 470-481: the rebuilt `documents` collection's creation payload
takes `primaryKey` from `info.json` when present and truthy. -/
def pass2Pk (e : ArchiveEntry) : Option String :=
  let pk0 := match e.info? with
             | some info => info.primaryKey
             | none => none
  if pkTruthy pk0 then pk0 else none

/-- `del settings['embedders']` (lines 511-513). -/
def stripEmbedders (s : Settings) : Settings :=
  s.filter (fun kv => kv.1 != "embedders")

/-- Lines 543-545: attach the null default vector marker to every document
that lacks a `_vectors` field. -/
def addVectors (d : Doc) : Doc :=
  if assocHas d "_vectors" then d
  else d ++ [("_vectors", DVal.obj [("default", DVal.null)])]

/-- Settings and documents for the rebuilt `documents` collection (lines
504-576): bulk settings patch of the embedder-stripped settings (outcome
only logged, no per-category fallback), then batched upload of the
vector-marked documents with no repair/retry. -/
def pass2SettingsDocs (srv : RServer) (e : ArchiveEntry) : List Event :=
  (match e.settings? with
   | none => []
   | some s =>
     Event.patchAllSettings "documents" (stripEmbedders s) ::
     (match srv.patchAllSettings "documents" (stripEmbedders s) with
      | some _ => []
      | none => []))
  ++
  (match e.docs? with
   | none => []
   | some docs =>
     if docs.isEmpty then []
     else
       (chunksOf 1000 (docs.map addVectors)).flatMap (fun b =>
         Event.postDocuments "documents" b ::
         (match srv.postDocuments "documents" b with
          | some _ => []
          | none => [])))

/-- Creation of the rebuilt `documents` collection (lines 478-502): a
creation failure (HTTP or task) returns early, ending the restore. -/
def pass2Create (srv : RServer) (e : ArchiveEntry) : List Event :=
  Event.createIndex "documents" (pass2Pk e) ::
  (match srv.createIndex "documents" (pass2Pk e) with
   | none => []
   | some tid? =>
     if waitSucceeded srv tid? then pass2SettingsDocs srv e else [])

/-- Pass 2 (lines 444-578): runs only when the archive has a `documents`
directory; an existing collection is deleted first, and a deletion failure
(HTTP or task) returns early, ending the restore. -/
def restorePass2 (srv : RServer) (e? : Option ArchiveEntry) : List Event :=
  match e? with
  | none => []
  | some e =>
    Event.checkIndex "documents" ::
    (if srv.checkIndex "documents" == 200 then
       Event.deleteIndex "documents" ::
       (match srv.deleteIndex "documents" with
        | none => []
        | some tid? =>
          if waitSucceeded srv tid? then pass2Create srv e else [])
     else pass2Create srv e)

/-- The extracted zip: the top-level names of the scratch directory (with
an is-directory flag, as `os.listdir` + `os.path.isdir` see them) and, for
each directory name, the collection subdirectories it holds. -/
structure ExtractedZip where
  items : List (String × Bool)
  archiveOf : String → List (String × ArchiveEntry)

/-- Lines 161-165: the first listed item that is a directory and whose name
contains `meilisearch_backup`. -/
def findBackupDir (items : List (String × Bool)) : Option String :=
  (items.find? (fun it => it.2 && strContains it.1 "meilisearch_backup")).map (fun it => it.1)

/-- `backup_dir / "documents"` for pass 2 (line 445). -/
def lookupEntry (a : List (String × ArchiveEntry)) (uid : String) : Option ArchiveEntry :=
  (a.find? (fun de => de.1 == uid)).map (fun de => de.2)

/-- `restore_meilisearch` (lines 143-588): locate the backup root (error
string when absent, lines 167-168), then pass 1 over all collection
directories followed by pass 2 for `documents`. -/
def restore_meilisearch (srv : RServer) (z : ExtractedZip) : Except String (List Event) :=
  match findBackupDir z.items with
  | none => .error "Error: Could not find meilisearch_backup directory in the zip file."
  | some d =>
    let archive := z.archiveOf d
    .ok (restorePass1 srv archive ++ restorePass2 srv (lookupEntry archive "documents"))

/-! ## Helper lemmas -/

theorem paginateAux_serverOf (L : List Doc) :
    ∀ (fuel o : Nat), (L.length - o) / 1000 < fuel →
      paginateAux (serverOf L) fuel o =
        (L.drop o, (List.range ((L.length - o) / 1000 + 1)).map (fun i => o + i * 1000)) := by
  intro fuel
  induction fuel with
  | zero => intro o h; omega
  | succ fuel ih =>
    intro o h
    have hlen : ((L.drop o).take 1000).length = min 1000 (L.length - o) := by
      simp [List.length_take, List.length_drop]
    by_cases h0 : L.length - o = 0
    · have hdrop : L.drop o = [] := List.drop_eq_nil_of_le (by omega)
      simp [paginateAux, serverOf, normalizePage, hdrop, h0, List.range_succ]
    · by_cases h1 : L.length - o < 1000
      · have hle : (L.drop o).length ≤ 1000 := by
          simp [List.length_drop]; omega
        have htake : (L.drop o).take 1000 = L.drop o := List.take_of_length_le hle
        have hne : (L.drop o).isEmpty = false := by
          cases hd : L.drop o with
          | nil => exfalso; have := congrArg List.length hd; simp [List.length_drop] at this; omega
          | cons a as => rfl
        have hdiv : (L.length - o) / 1000 = 0 := Nat.div_eq_of_lt h1
        have hlt : (L.drop o).length < 1000 := by
          simp [List.length_drop]; omega
        simp [paginateAux, serverOf, normalizePage, htake, hne, hlt, h1, hdiv, List.range_succ]
      · -- full page of exactly 1000 documents
        have hfull : ((L.drop o).take 1000).length = 1000 := by omega
        have hne : ((L.drop o).take 1000).isEmpty = false := by
          cases hd : (L.drop o).take 1000 with
          | nil => exfalso; have := congrArg List.length hd; rw [hfull] at this; simp at this
          | cons a as => rfl
        have hnlt : ¬ ((L.drop o).take 1000).length < 1000 := by omega
        have hrec : (L.length - (o + 1000)) / 1000 < fuel := by
          have hsub : L.length - (o + 1000) = L.length - o - 1000 := by omega
          have := Nat.div_eq_sub_div (by omega : 0 < 1000) (by omega : 1000 ≤ L.length - o)
          omega
        have ihr := ih (o + 1000) hrec
        have hjoin : (L.drop o).take 1000 ++ L.drop (o + 1000) = L.drop o := by
          have h2 := List.take_append_drop 1000 (L.drop o)
          rwa [List.drop_drop] at h2
        have hdivsucc : (L.length - o) / 1000 = (L.length - (o + 1000)) / 1000 + 1 := by
          have hsub : L.length - (o + 1000) = L.length - o - 1000 := by omega
          have := Nat.div_eq_sub_div (by omega : 0 < 1000) (by omega : 1000 ≤ L.length - o)
          omega
        have hoffs : o :: List.map (fun i => o + 1000 + i * 1000)
              (List.range ((L.length - (o + 1000)) / 1000 + 1)) =
            List.map (fun i => o + i * 1000)
              (List.range ((L.length - (o + 1000)) / 1000 + 1 + 1)) := by
          nth_rewrite 2 [List.range_succ_eq_map]
          simp only [List.map_cons, List.map_map]
          congr 1
          all_goals first
          | omega
          | (apply List.map_congr_left; intro i _;
             simp only [Function.comp_apply, Nat.succ_eq_add_one]; ring)
        simp only [paginateAux, serverOf, normalizePage, hne, hnlt, ihr, hdivsucc,
          Bool.false_eq_true, if_false]
        rw [Prod.mk.injEq]
        exact ⟨hjoin, hoffs⟩

theorem paginate_serverOf (L : List Doc) (fuel : Nat) (h : L.length / 1000 < fuel) :
    paginate (serverOf L) fuel =
      (L, (List.range (L.length / 1000 + 1)).map (fun i => i * 1000)) := by
  have := paginateAux_serverOf L fuel 0 (by simpa using h)
  simpa [paginate] using this

theorem paginateAux_serverStopAt (L : List Doc) (m : Nat) (b : PageResp) (hb : stopsResp b) :
    ∀ (fuel j : Nat), j ≤ m → m - j < fuel → 1000 * m ≤ L.length →
      paginateAux (serverStopAt L m b) fuel (1000 * j) =
        ((L.drop (1000 * j)).take (1000 * (m - j)),
         (List.range (m - j + 1)).map (fun i => 1000 * j + i * 1000)) := by
  intro fuel
  induction fuel with
  | zero => intro j _ hf _; omega
  | succ fuel ih =>
    intro j hjm hfm hml
    by_cases hj : j = m
    · subst hj
      have hnlt : ¬ (1000 * j < 1000 * j) := by omega
      have hsub : j - j = 0 := by omega
      cases b with
      | httpErr =>
        simp [paginateAux, serverStopAt, hnlt, hsub, List.range_succ]
      | ok body =>
        have hb' : normalizePage body = none := hb
        simp [paginateAux, serverStopAt, hnlt, hb', hsub, List.range_succ]
    · have hjlt : j < m := by omega
      have hlt : 1000 * j < 1000 * m := by omega
      have hlen : ((L.drop (1000 * j)).take 1000).length = 1000 := by
        simp only [List.length_take, List.length_drop]
        omega
      have hne : ((L.drop (1000 * j)).take 1000).isEmpty = false := by
        cases hd : (L.drop (1000 * j)).take 1000 with
        | nil => exfalso; have := congrArg List.length hd; rw [hlen] at this; simp at this
        | cons a as => rfl
      have hnlt : ¬ ((L.drop (1000 * j)).take 1000).length < 1000 := by omega
      have hstep : 1000 * j + 1000 = 1000 * (j + 1) := by ring
      have ihr := ih (j + 1) (by omega) (by omega) hml
      have hjoin : (L.drop (1000 * j)).take 1000 ++
            (L.drop (1000 * (j + 1))).take (1000 * (m - (j + 1))) =
          (L.drop (1000 * j)).take (1000 * (m - j)) := by
        have hmj : 1000 * (m - j) = 1000 + 1000 * (m - (j + 1)) := by omega
        rw [hmj, List.take_add, List.drop_drop]
        have h1000 : 1000 * j + 1000 = 1000 * (j + 1) := by ring
        rw [h1000]
      have hoffs : 1000 * j :: List.map (fun i => 1000 * (j + 1) + i * 1000)
            (List.range (m - (j + 1) + 1)) =
          List.map (fun i => 1000 * j + i * 1000) (List.range (m - j + 1)) := by
        have hmj : m - j + 1 = (m - (j + 1) + 1) + 1 := by omega
        rw [hmj]
        nth_rewrite 2 [List.range_succ_eq_map]
        simp only [List.map_cons, List.map_map]
        congr 1
        all_goals first
        | omega
        | (apply List.map_congr_left; intro i _;
           simp only [Function.comp_apply, Nat.succ_eq_add_one]; ring)
      simp only [paginateAux, serverStopAt, hlt, if_pos, serverOf, normalizePage, hne,
        Bool.false_eq_true, if_false, hnlt, hstep, ihr]
      rw [Prod.mk.injEq]
      exact ⟨hjoin, hoffs⟩

theorem paginate_serverStopAt (L : List Doc) (m : Nat) (b : PageResp) (hb : stopsResp b)
    (fuel : Nat) (hf : m < fuel) (hml : 1000 * m ≤ L.length) :
    paginate (serverStopAt L m b) fuel =
      (L.take (1000 * m), (List.range (m + 1)).map (fun i => i * 1000)) := by
  have h := paginateAux_serverStopAt L m b hb fuel 0 (by omega) (by omega) hml
  simpa [paginate] using h

theorem wait_for_task_terminal (poll : Nat → Option MTask) :
    ∀ (fuel n : Nat) (r : MTask), wait_for_task poll fuel n = some (some r) →
      terminalStatus r.status = true := by
  intro fuel
  induction fuel with
  | zero => intro n r h; simp [wait_for_task] at h
  | succ fuel ih =>
    intro n r h
    rw [wait_for_task] at h
    split at h
    · split at h
      · rename_i t heq ht
        have hh := Option.some.inj (Option.some.inj h)
        subst hh
        exact ht
      · exact ih (n + 1) r h
    · simp at h

theorem chunksOf_flatten {α : Type} (n : Nat) (hn : n ≠ 0) :
    ∀ l : List α, (chunksOf n l).flatten = l := by
  have H : ∀ (len : Nat) (l : List α), l.length = len → (chunksOf n l).flatten = l := by
    intro len
    induction len using Nat.strong_induction_on with
    | _ len ih =>
      intro l hl
      cases l with
      | nil => simp [chunksOf]
      | cons x xs =>
        rw [chunksOf, dif_neg hn, List.flatten_cons]
        have hlt : ((x :: xs).drop n).length < len := by
          subst hl
          simp only [List.length_drop, List.length_cons]
          exact Nat.sub_lt (Nat.succ_pos _) (Nat.pos_of_ne_zero hn)
        rw [ih _ hlt _ rfl]
        exact List.take_append_drop n (x :: xs)
  intro l
  exact H l.length l rfl

theorem mem_restorePass1 (srv : RServer) (archive : List (String × ArchiveEntry))
    (uid : String) (e : ArchiveEntry) (h : (uid, e) ∈ archive) :
    Event.processIndex uid ∈ restorePass1 srv archive := by
  rw [restorePass1, List.mem_flatMap]
  exact ⟨(uid, e), h, List.mem_cons_self _ _⟩

/-- The three possible request traces of one pass-1 batch upload: post only;
post then repair patch; post, repair patch and one retry post. -/
theorem postBatchPass1_cases (srv : RServer) (uid : String) (batch : List Doc) :
    postBatchPass1 srv uid batch = [Event.postDocuments uid batch] ∨
    postBatchPass1 srv uid batch =
      [Event.postDocuments uid batch, Event.patchIndexPk uid "id"] ∨
    postBatchPass1 srv uid batch =
      [Event.postDocuments uid batch, Event.patchIndexPk uid "id",
       Event.postDocuments uid batch] := by
  rw [postBatchPass1]
  cases hpost : srv.postDocuments uid batch with
  | none => left; rfl
  | some tid? =>
    cases tid? with
    | none => left; rfl
    | some tid =>
      cases hw : srv.wait (some tid) with
      | none => left; simp [hw]
      | some t =>
        by_cases hs : (t.status == "succeeded") = true
        · left; simp [hw, hs]
        · by_cases hrep : (uid == "page" && errorMentionsPk t) = true
          · cases hp2 : srv.patchIndexPk uid "id" with
            | none => right; left; simp [hw, hs, hrep, hp2]
            | some tid2? =>
              by_cases hw2 : waitSucceeded srv tid2? = true
              · right; right; simp [hw, hs, hrep, hp2, hw2]
              · right; left; simp [hw, hs, hrep, hp2, hw2]
          · left; simp [hw, hs, hrep]

/-- A non-`page` collection never takes the repair path: one post, nothing
else. -/
theorem postBatchPass1_not_page (srv : RServer) (uid : String) (batch : List Doc)
    (h : uid ≠ "page") :
    postBatchPass1 srv uid batch = [Event.postDocuments uid batch] := by
  have hpage : (uid == "page") = false := beq_eq_false_iff_ne.mpr h
  rw [postBatchPass1]
  cases hpost : srv.postDocuments uid batch with
  | none => rfl
  | some tid? =>
    cases tid? with
    | none => rfl
    | some tid =>
      cases hw : srv.wait (some tid) with
      | none => simp [hw]
      | some t =>
        by_cases hs : (t.status == "succeeded") = true
        · simp [hw, hs]
        · simp [hw, hs, hpage]

theorem assocHas_eq_isSome {α : Type} (d : List (String × α)) (k : String) :
    assocHas d k = (assocGet d k).isSome := by
  rw [assocHas, assocGet]
  cases hf : d.find? (fun kv => kv.1 == k) with
  | none =>
    rw [List.find?_eq_none] at hf
    simp only [Option.map_none', Option.isSome_none]
    rw [List.any_eq_false]
    intro kv hm
    simp only [Bool.not_eq_true]
    rw [← Bool.not_eq_true]
    exact hf kv hm
  | some kv =>
    simp only [Option.map_some', Option.isSome_some]
    have hp := List.find?_some hf
    exact List.any_eq_true.mpr ⟨kv, List.mem_of_find?_eq_some hf, hp⟩

theorem assocGet_append_self {α : Type} (d : List (String × α)) (k : String) (v : α)
    (h : assocHas d k = false) : assocGet (d ++ [(k, v)]) k = some v := by
  induction d with
  | nil => simp [assocGet, List.find?]
  | cons kv rest ih =>
    rw [assocHas, List.any_cons, Bool.or_eq_false_iff] at h
    rw [List.cons_append, assocGet, List.find?_cons, h.1]
    rw [assocGet] at ih
    exact ih h.2

theorem applySettingFallback_eq (srv : RServer) (uid : String) (s : Settings) :
    ∀ ts : List String, applySettingFallback srv uid s ts =
      ts.filterMap (fun t =>
        match assocGet s t with
        | some v => if v.truthy then some (Event.putSetting uid t v) else none
        | none => none) := by
  intro ts
  induction ts with
  | nil => rfl
  | cons t rest ih =>
    rw [applySettingFallback, List.filterMap_cons]
    cases hg : assocGet s t with
    | none => simpa [hg] using ih
    | some v =>
      by_cases hv : v.truthy = true
      · cases hput : srv.putSetting uid t v <;> simp [hg, hv, hput, ih]
      · simp only [Bool.not_eq_true] at hv
        simp [hg, hv, ih]

/-! ## Claims -/

/-- Claim C2: `wait_for_task` returns exactly the polled task record as soon
as a successful status query reports a status in {succeeded, failed,
canceled}; every record it returns is terminal (so it never returns while
the status is `enqueued` or `processing`); a non-success status query makes
it return immediately with no task record; and a non-terminal record makes
it poll again instead of returning. -/
theorem claim2_wait_for_task (poll : Nat → Option MTask) (fuel n : Nat) (r : MTask) :
    (wait_for_task poll fuel n = some (some r) → terminalStatus r.status = true) ∧
    (poll n = some r → terminalStatus r.status = true → 0 < fuel →
      wait_for_task poll fuel n = some (some r)) ∧
    (poll n = none → 0 < fuel → wait_for_task poll fuel n = some none) ∧
    (poll n = some r → terminalStatus r.status = false →
      wait_for_task poll (fuel + 1) n = wait_for_task poll fuel (n + 1)) := by
  refine ⟨fun h => wait_for_task_terminal poll fuel n r h, ?_, ?_, ?_⟩
  · intro hp ht hf
    cases fuel with
    | zero => omega
    | succ fuel => rw [wait_for_task, hp]; simp [ht]
  · intro hp hf
    cases fuel with
    | zero => omega
    | succ fuel => rw [wait_for_task, hp]
  · intro hp ht
    rw [wait_for_task, hp]
    simp [ht]

/-- Witness for C2 at concrete polling streams. -/
theorem claim2_witness :
    (wait_for_task (fun _ => some ⟨"succeeded", none⟩) 3 0 =
      some (some ⟨"succeeded", none⟩)) ∧
    (wait_for_task (fun _ => none) 3 0 = some none) ∧
    (wait_for_task (fun _ => some ⟨"processing", none⟩) 4 0 =
      wait_for_task (fun _ => some ⟨"processing", none⟩) 3 1) ∧
    (terminalStatus (MTask.status ⟨"succeeded", none⟩) = true) := by
  refine ⟨?_, ?_, ?_, ?_⟩
  · exact (claim2_wait_for_task (fun _ => some ⟨"succeeded", none⟩) 3 0
      ⟨"succeeded", none⟩).2.1 rfl (by decide) (by decide)
  · exact (claim2_wait_for_task (fun _ => none) 3 0
      ⟨"succeeded", none⟩).2.2.1 rfl (by decide)
  · exact (claim2_wait_for_task (fun _ => some ⟨"processing", none⟩) 3 0
      ⟨"processing", none⟩).2.2.2 rfl (by decide)
  · exact (claim2_wait_for_task (fun _ => some ⟨"succeeded", none⟩) 1 0
      ⟨"succeeded", none⟩).1 rfl

/-- Claim C6: before uploading the `page` collection's documents, a
document that contains `_meilisearch_id` but lacks `id` gets `id` set to
the alternate field's value; a document that already contains `id` is left
unchanged; and the `page` upload path applies this fix to every document. -/
theorem claim6_fix_page_doc (d : Doc) (srv : RServer) (docs : List Doc) :
    (assocHas d "_meilisearch_id" = true → assocHas d "id" = false →
      assocGet (fixPageDoc d) "id" = assocGet d "_meilisearch_id") ∧
    (assocHas d "id" = true → fixPageDoc d = d) ∧
    (docs.isEmpty = false →
      restoreDocsPass1 srv "page" (some docs) =
        (chunksOf 1000 (docs.map fixPageDoc)).flatMap (postBatchPass1 srv "page")) := by
  refine ⟨?_, ?_, ?_⟩
  · intro hm hid
    rw [assocHas_eq_isSome] at hm
    cases hg : assocGet d "_meilisearch_id" with
    | none => rw [hg] at hm; simp at hm
    | some v =>
      simp only [fixPageDoc, hg, hid, Bool.false_eq_true, if_false]
      exact assocGet_append_self d "id" v hid
  · intro hid
    cases hg : assocGet d "_meilisearch_id" with
    | none => simp [fixPageDoc, hg]
    | some v => simp [fixPageDoc, hg, hid]
  · intro hne
    rw [restoreDocsPass1, hne]
    simp

/-- Witness for C6 at a concrete legacy document. -/
theorem claim6_witness :
    assocGet (fixPageDoc [("_meilisearch_id", DVal.str "m7")]) "id" =
      assocGet [("_meilisearch_id", DVal.str "m7")] "_meilisearch_id" ∧
    fixPageDoc [("id", DVal.str "k"), ("_meilisearch_id", DVal.str "m7")] =
      [("id", DVal.str "k"), ("_meilisearch_id", DVal.str "m7")] := by
  constructor
  · exact (claim6_fix_page_doc [("_meilisearch_id", DVal.str "m7")]
      { checkIndex := fun _ => 200, deleteIndex := fun _ => none,
        createIndex := fun _ _ => none, patchAllSettings := fun _ _ => none,
        putSetting := fun _ _ _ => none, patchIndexPk := fun _ _ => none,
        postDocuments := fun _ _ => none, wait := fun _ => none } []).1 rfl rfl
  · exact (claim6_fix_page_doc [("id", DVal.str "k"), ("_meilisearch_id", DVal.str "m7")]
      { checkIndex := fun _ => 200, deleteIndex := fun _ => none,
        createIndex := fun _ _ => none, patchAllSettings := fun _ _ => none,
        putSetting := fun _ _ _ => none, patchIndexPk := fun _ _ => none,
        postDocuments := fun _ _ => none, wait := fun _ => none } []).2.1 rfl

/-- Claim C7: the per-category fallback runs only when the bulk settings
patch is rejected; when it runs, exactly the present-and-truthy categories
of the fixed seven-element list are `PUT`, in order, independently of any
category's own outcome (the trace equation holds for every server, so one
category's failure never blocks the rest). -/
theorem claim7_settings_fallback (srv : RServer) (uid : String) (s : Settings) :
    (∀ tid?, srv.patchAllSettings uid s = some tid? →
      restoreSettingsPass1 srv uid (some s) = [Event.patchAllSettings uid s]) ∧
    (srv.patchAllSettings uid s = none →
      restoreSettingsPass1 srv uid (some s) =
        Event.patchAllSettings uid s ::
          settingTypes.filterMap (fun t =>
            match assocGet s t with
            | some v => if v.truthy then some (Event.putSetting uid t v) else none
            | none => none)) := by
  constructor
  · intro tid? hp
    rw [restoreSettingsPass1, hp]
  · intro hp
    rw [restoreSettingsPass1, hp, applySettingFallback_eq]

/-- Witness for C7: a rejected bulk patch over settings with one truthy,
one empty and one absent category, and an accepted bulk patch. -/
theorem claim7_witness :
    restoreSettingsPass1
      { checkIndex := fun _ => 200, deleteIndex := fun _ => none,
        createIndex := fun _ _ => none, patchAllSettings := fun _ _ => none,
        putSetting := fun _ _ _ => some (some 5), patchIndexPk := fun _ _ => none,
        postDocuments := fun _ _ => none, wait := fun _ => none }
      "alpha" (some [("rankingRules", SVal.arr ["words"]), ("stopWords", SVal.arr [])]) =
      [Event.patchAllSettings "alpha"
         [("rankingRules", SVal.arr ["words"]), ("stopWords", SVal.arr [])],
       Event.putSetting "alpha" "rankingRules" (SVal.arr ["words"])] ∧
    restoreSettingsPass1
      { checkIndex := fun _ => 200, deleteIndex := fun _ => none,
        createIndex := fun _ _ => none, patchAllSettings := fun _ _ => some (some 9),
        putSetting := fun _ _ _ => none, patchIndexPk := fun _ _ => none,
        postDocuments := fun _ _ => none, wait := fun _ => none }
      "alpha" (some [("rankingRules", SVal.arr ["words"])]) =
      [Event.patchAllSettings "alpha" [("rankingRules", SVal.arr ["words"])]] := by
  constructor
  · have h := (claim7_settings_fallback
      { checkIndex := fun _ => 200, deleteIndex := fun _ => none,
        createIndex := fun _ _ => none, patchAllSettings := fun _ _ => none,
        putSetting := fun _ _ _ => some (some 5), patchIndexPk := fun _ _ => none,
        postDocuments := fun _ _ => none, wait := fun _ => none }
      "alpha" [("rankingRules", SVal.arr ["words"]), ("stopWords", SVal.arr [])]).2 rfl
    rw [h]
    rfl
  · exact (claim7_settings_fallback
      { checkIndex := fun _ => 200, deleteIndex := fun _ => none,
        createIndex := fun _ _ => none, patchAllSettings := fun _ _ => some (some 9),
        putSetting := fun _ _ _ => none, patchIndexPk := fun _ _ => none,
        postDocuments := fun _ _ => none, wait := fun _ => none }
      "alpha" [("rankingRules", SVal.arr ["words"])]).1 (some 9) rfl

theorem applySettingFallback_uid (srv : RServer) (uid : String) (s : Settings) :
    ∀ (ts : List String) (ev : Event), ev ∈ applySettingFallback srv uid s ts →
      eventUid ev = uid := by
  intro ts
  induction ts with
  | nil => intro ev h; simp [applySettingFallback] at h
  | cons t rest ih =>
    intro ev h
    rw [applySettingFallback] at h
    cases hg : assocGet s t with
    | none => rw [hg] at h; exact ih ev h
    | some v =>
      by_cases hv : v.truthy = true
      · simp only [hg, hv, if_true] at h
        cases hput : srv.putSetting uid t v <;> simp only [hput] at h <;>
          (rw [List.mem_cons] at h
           cases h with
           | inl h0 => rw [h0]; rfl
           | inr h1 => exact ih ev h1)
      · simp only [Bool.not_eq_true] at hv
        simp only [hg, hv, Bool.false_eq_true, if_false] at h
        exact ih ev h

theorem restoreSettingsPass1_uid (srv : RServer) (uid : String) (s? : Option Settings)
    (ev : Event) (h : ev ∈ restoreSettingsPass1 srv uid s?) : eventUid ev = uid := by
  cases s? with
  | none => simp [restoreSettingsPass1] at h
  | some s =>
    rw [restoreSettingsPass1, List.mem_cons] at h
    cases h with
    | inl h0 => rw [h0]; rfl
    | inr h1 =>
      cases hp : srv.patchAllSettings uid s <;> simp only [hp] at h1
      · exact applySettingFallback_uid srv uid s settingTypes ev h1
      · simp at h1

theorem postBatchPass1_uid (srv : RServer) (uid : String) (batch : List Doc)
    (ev : Event) (h : ev ∈ postBatchPass1 srv uid batch) : eventUid ev = uid := by
  rcases postBatchPass1_cases srv uid batch with hc | hc | hc <;> rw [hc] at h
  · rw [List.mem_singleton] at h; rw [h]; rfl
  · rcases List.mem_cons.mp h with h0 | h0
    · rw [h0]; rfl
    · rw [List.mem_singleton] at h0; rw [h0]; rfl
  · rcases List.mem_cons.mp h with h0 | h0
    · rw [h0]; rfl
    · rcases List.mem_cons.mp h0 with h1 | h1
      · rw [h1]; rfl
      · rw [List.mem_singleton] at h1; rw [h1]; rfl

theorem restoreDocsPass1_uid (srv : RServer) (uid : String) (d? : Option (List Doc))
    (ev : Event) (h : ev ∈ restoreDocsPass1 srv uid d?) : eventUid ev = uid := by
  cases d? with
  | none => simp [restoreDocsPass1] at h
  | some docs =>
    rw [restoreDocsPass1] at h
    by_cases hemp : docs.isEmpty = true
    · rw [if_pos hemp] at h; simp at h
    · rw [if_neg hemp, List.mem_flatMap] at h
      obtain ⟨b, _, hb⟩ := h
      exact postBatchPass1_uid srv uid b ev hb

theorem pass1SettingsDocs_uid (srv : RServer) (uid : String) (e : ArchiveEntry)
    (ev : Event) (h : ev ∈ pass1SettingsDocs srv uid e) : eventUid ev = uid := by
  rw [pass1SettingsDocs, List.mem_append] at h
  cases h with
  | inl h1 => exact restoreSettingsPass1_uid srv uid e.settings? ev h1
  | inr h2 => exact restoreDocsPass1_uid srv uid e.docs? ev h2

theorem pass1Create_uid (srv : RServer) (uid : String) (e : ArchiveEntry)
    (ev : Event) (h : ev ∈ pass1Create srv uid e) : eventUid ev = uid := by
  rw [pass1Create, List.mem_cons] at h
  cases h with
  | inl h0 => rw [h0]; rfl
  | inr h1 =>
    cases hc : srv.createIndex uid (pass1Pk uid e) with
    | none => simp only [hc] at h1; simp at h1
    | some tid? =>
      simp only [hc] at h1
      by_cases hw : waitSucceeded srv tid? = true
      · rw [if_pos hw] at h1; exact pass1SettingsDocs_uid srv uid e ev h1
      · rw [if_neg hw] at h1; simp at h1

theorem restoreIndexPass1_uid (srv : RServer) (uid : String) (e : ArchiveEntry)
    (ev : Event) (h : ev ∈ restoreIndexPass1 srv uid e) : eventUid ev = uid := by
  have hafter : ∀ c, ev ∈ pass1AfterCheck srv uid e c → eventUid ev = uid := by
    intro c hc
    rw [pass1AfterCheck] at hc
    by_cases h404 : (c == 404) = true
    · rw [if_pos h404] at hc; exact pass1Create_uid srv uid e ev hc
    · rw [if_neg h404] at hc; exact pass1SettingsDocs_uid srv uid e ev hc
  rw [restoreIndexPass1, List.mem_cons] at h
  cases h with
  | inl h0 => rw [h0]; rfl
  | inr h1 =>
    by_cases hdoc : (uid == "documents") = true
    · rw [if_pos hdoc] at h1; simp at h1
    · rw [if_neg hdoc, List.mem_cons] at h1
      cases h1 with
      | inl h0 => rw [h0]; rfl
      | inr h2 =>
        by_cases hpage : (uid == "page" && srv.checkIndex uid == 200) = true
        · rw [if_pos hpage, List.mem_cons] at h2
          cases h2 with
          | inl h0 => rw [h0]; rfl
          | inr h3 =>
            cases hd : srv.deleteIndex uid with
            | none => simp only [hd] at h3; simp at h3
            | some tid? =>
              simp only [hd] at h3
              by_cases hw : waitSucceeded srv tid? = true
              · rw [if_pos hw] at h3; exact hafter 404 h3
              · rw [if_neg hw] at h3; simp at h3
        · rw [if_neg hpage] at h2
          exact hafter (srv.checkIndex uid) h2

theorem restoreIndexPass1_documents (srv : RServer) (e : ArchiveEntry) :
    restoreIndexPass1 srv "documents" e = [Event.processIndex "documents"] := by
  rw [restoreIndexPass1]
  simp

/-- No request of pass 1 ever patches the settings of the reserved
`documents` collection (its directory is skipped there). -/
theorem restorePass1_no_documents_patch (srv : RServer)
    (archive : List (String × ArchiveEntry)) (s' : Settings) :
    Event.patchAllSettings "documents" s' ∉ restorePass1 srv archive := by
  intro h
  rw [restorePass1, List.mem_flatMap] at h
  obtain ⟨⟨uid, e⟩, _, hev⟩ := h
  by_cases hd : uid = "documents"
  · subst hd
    rw [restoreIndexPass1_documents] at hev
    simp at hev
  · have := restoreIndexPass1_uid srv uid e _ hev
    simp [eventUid] at this
    exact hd this.symm

theorem pass2SettingsDocs_patch (srv : RServer) (e : ArchiveEntry) (s' : Settings)
    (h : Event.patchAllSettings "documents" s' ∈ pass2SettingsDocs srv e) :
    ∃ s, e.settings? = some s ∧ s' = stripEmbedders s := by
  rw [pass2SettingsDocs, List.mem_append] at h
  cases h with
  | inl h1 =>
    cases hs : e.settings? with
    | none => rw [hs] at h1; simp at h1
    | some s =>
      rw [hs] at h1
      refine ⟨s, rfl, ?_⟩
      cases hp : srv.patchAllSettings "documents" (stripEmbedders s) <;>
        simp only [hp, List.mem_cons, List.not_mem_nil, or_false] at h1 <;>
        (rw [Event.patchAllSettings.injEq] at h1; exact h1.2)
  | inr h2 =>
    exfalso
    cases hd : e.docs? with
    | none => rw [hd] at h2; simp at h2
    | some docs =>
      simp only [hd] at h2
      by_cases hemp : docs.isEmpty = true
      · rw [if_pos hemp] at h2; simp at h2
      · rw [if_neg hemp, List.mem_flatMap] at h2
        obtain ⟨b, _, hb⟩ := h2
        cases hp : srv.postDocuments "documents" b <;> simp [hp] at hb

theorem pass2Create_patch (srv : RServer) (e : ArchiveEntry) (s' : Settings)
    (h : Event.patchAllSettings "documents" s' ∈ pass2Create srv e) :
    ∃ s, e.settings? = some s ∧ s' = stripEmbedders s := by
  rw [pass2Create, List.mem_cons] at h
  cases h with
  | inl h0 => simp at h0
  | inr hc =>
    cases hcr : srv.createIndex "documents" (pass2Pk e) with
    | none => simp only [hcr] at hc; simp at hc
    | some tid? =>
      simp only [hcr] at hc
      by_cases hw : waitSucceeded srv tid? = true
      · rw [if_pos hw] at hc
        exact pass2SettingsDocs_patch srv e s' hc
      · rw [if_neg hw] at hc; simp at hc

theorem restorePass2_patch (srv : RServer) (e : ArchiveEntry) (s' : Settings)
    (h : Event.patchAllSettings "documents" s' ∈ restorePass2 srv (some e)) :
    ∃ s, e.settings? = some s ∧ s' = stripEmbedders s := by
  rw [restorePass2, List.mem_cons] at h
  cases h with
  | inl h0 => simp at h0
  | inr h =>
    by_cases hchk : (srv.checkIndex "documents" == 200) = true
    · rw [if_pos hchk, List.mem_cons] at h
      cases h with
      | inl h0 => simp at h0
      | inr h =>
        cases hdel : srv.deleteIndex "documents" with
        | none => simp only [hdel] at h; simp at h
        | some tid? =>
          simp only [hdel] at h
          by_cases hw : waitSucceeded srv tid? = true
          · rw [if_pos hw] at h; exact pass2Create_patch srv e s' h
          · rw [if_neg hw] at h; simp at h
    · rw [if_neg hchk] at h
      exact pass2Create_patch srv e s' h

/-- Claim C5: the settings payload restore sends for the rebuilt
`documents` collection is always the archived settings with the
`embedders` entry deleted; the stripped object never carries an
`embedders` key; on the successful delete-free path the stripped payload
is actually sent; and pass 1 never patches that collection's settings at
all. -/
theorem claim5_embedders_stripped (srv : RServer) (e : ArchiveEntry) (s s' : Settings)
    (archive : List (String × ArchiveEntry)) :
    (assocHas (stripEmbedders s) "embedders" = false) ∧
    (Event.patchAllSettings "documents" s' ∈ restorePass2 srv (some e) →
      ∃ s0, e.settings? = some s0 ∧ s' = stripEmbedders s0) ∧
    (e.settings? = some s → srv.checkIndex "documents" ≠ 200 →
      (∀ tid?, srv.createIndex "documents" (pass2Pk e) = some tid? →
        waitSucceeded srv tid? = true →
        Event.patchAllSettings "documents" (stripEmbedders s) ∈
          restorePass2 srv (some e))) ∧
    (Event.patchAllSettings "documents" s' ∉ restorePass1 srv archive) := by
  refine ⟨?_, restorePass2_patch srv e s', ?_, restorePass1_no_documents_patch srv archive s'⟩
  · rw [assocHas, List.any_eq_false]
    intro kv hm
    rw [stripEmbedders, List.mem_filter] at hm
    have hne := hm.2
    rw [bne_iff_ne] at hne
    simp [hne]
  · intro hs hchk tid? hcr hw
    have hchk' : (srv.checkIndex "documents" == 200) = false := by
      rw [beq_eq_false_iff_ne]
      exact hchk
    rw [restorePass2, List.mem_cons]
    right
    rw [hchk']
    simp only [Bool.false_eq_true, if_false]
    rw [pass2Create, List.mem_cons]
    right
    simp only [hcr]
    rw [if_pos hw]
    rw [pass2SettingsDocs, hs, List.mem_append]
    left
    exact List.mem_cons_self _ _

/-- Witness for C5 at a concrete archived settings object carrying an
`embedders` entry. -/
theorem claim5_witness :
    assocHas (stripEmbedders [("embedders", SVal.obj [("default", "x")]),
      ("stopWords", SVal.arr ["a"])]) "embedders" = false ∧
    Event.patchAllSettings "documents"
        (stripEmbedders [("embedders", SVal.obj [("default", "x")]),
          ("stopWords", SVal.arr ["a"])]) ∈
      restorePass2
        { checkIndex := fun _ => 404, deleteIndex := fun _ => none,
          createIndex := fun _ _ => some (some 0), patchAllSettings := fun _ _ => some (some 1),
          putSetting := fun _ _ _ => none, patchIndexPk := fun _ _ => none,
          postDocuments := fun _ _ => some (some 2),
          wait := fun _ => some ⟨"succeeded", none⟩ }
        (some { info? := none,
                settings? := some [("embedders", SVal.obj [("default", "x")]),
                  ("stopWords", SVal.arr ["a"])],
                docs? := none }) := by
  constructor
  · exact (claim5_embedders_stripped
      { checkIndex := fun _ => 404, deleteIndex := fun _ => none,
        createIndex := fun _ _ => some (some 0), patchAllSettings := fun _ _ => some (some 1),
        putSetting := fun _ _ _ => none, patchIndexPk := fun _ _ => none,
        postDocuments := fun _ _ => some (some 2),
        wait := fun _ => some ⟨"succeeded", none⟩ }
      { info? := none, settings? := some [("embedders", SVal.obj [("default", "x")]),
          ("stopWords", SVal.arr ["a"])], docs? := none }
      [("embedders", SVal.obj [("default", "x")]), ("stopWords", SVal.arr ["a"])]
      [] []).1
  · exact (claim5_embedders_stripped
      { checkIndex := fun _ => 404, deleteIndex := fun _ => none,
        createIndex := fun _ _ => some (some 0), patchAllSettings := fun _ _ => some (some 1),
        putSetting := fun _ _ _ => none, patchIndexPk := fun _ _ => none,
        postDocuments := fun _ _ => some (some 2),
        wait := fun _ => some ⟨"succeeded", none⟩ }
      { info? := none, settings? := some [("embedders", SVal.obj [("default", "x")]),
          ("stopWords", SVal.arr ["a"])], docs? := none }
      [("embedders", SVal.obj [("default", "x")]), ("stopWords", SVal.arr ["a"])]
      [] []).2.2.1 rfl (by decide) (some 0) rfl rfl

/-- Counterexample to C4 as stated: a `page` batch-upload task that ends
`failed` but whose record carries no `error` field triggers no corrective
patch and no retry — the batch's request trace is the single post (the
code at line 392 additionally requires an `error` field mentioning
`primary_key` before repairing). -/
theorem claim4_counterexample :
    (let srv : RServer :=
      { checkIndex := fun _ => 200, deleteIndex := fun _ => none,
        createIndex := fun _ _ => some (some 0),
        patchAllSettings := fun _ _ => some (some 0),
        putSetting := fun _ _ _ => some (some 0),
        patchIndexPk := fun _ _ => some (some 0),
        postDocuments := fun _ _ => some (some 1),
        wait := fun tid? => if tid? == some 1 then some ⟨"failed", none⟩
                            else some ⟨"succeeded", none⟩ }
     srv.wait (some 1) = some ⟨"failed", none⟩ ∧
     postBatchPass1 srv "page" [[("title", DVal.str "t")]] =
       [Event.postDocuments "page" [[("title", DVal.str "t")]]]) :=
  ⟨rfl, rfl⟩

/-- Claim C4 (amended): during pass 1, when a `page` batch-upload task
ends non-succeeded and the returned record's `error` field mentions
`primary_key`, the orchestrator patches the collection to force the
hardcoded primary key `id`; when that patch is accepted and its own task
succeeds it retries the same batch exactly once (trace: post, patch,
post); a batch trace never contains more than two posts; and a non-`page`
collection's batch trace is always the single post with no patch. -/
theorem claim4_repair_retry (srv : RServer) (uid : String) (batch : List Doc)
    (tid : Nat) (t : MTask) :
    (srv.postDocuments "page" batch = some (some tid) →
     srv.wait (some tid) = some t →
     (t.status == "succeeded") = false →
     errorMentionsPk t = true →
     Event.patchIndexPk "page" "id" ∈ postBatchPass1 srv "page" batch ∧
     (∀ tid2?, srv.patchIndexPk "page" "id" = some tid2? →
        waitSucceeded srv tid2? = true →
        postBatchPass1 srv "page" batch =
          [Event.postDocuments "page" batch, Event.patchIndexPk "page" "id",
           Event.postDocuments "page" batch])) ∧
    ((postBatchPass1 srv uid batch).countP isPostEvent ≤ 2) ∧
    (uid ≠ "page" → postBatchPass1 srv uid batch = [Event.postDocuments uid batch]) := by
  refine ⟨?_, ?_, postBatchPass1_not_page srv uid batch⟩
  · intro hpost hw hs herr
    constructor
    · simp [postBatchPass1, hpost, hw, hs, herr]
    · intro tid2? hp2 hw2
      simp [postBatchPass1, hpost, hw, hs, herr, hp2, hw2]
  · rcases postBatchPass1_cases srv uid batch with hc | hc | hc <;>
      rw [hc] <;> simp [List.countP_cons, List.countP_nil, isPostEvent]

/-- Witness for the amended C4 at a concrete repair-triggering failure. -/
theorem claim4_witness :
    (let srv : RServer :=
      { checkIndex := fun _ => 200, deleteIndex := fun _ => none,
        createIndex := fun _ _ => some (some 0),
        patchAllSettings := fun _ _ => some (some 0),
        putSetting := fun _ _ _ => some (some 0),
        patchIndexPk := fun _ _ => some (some 2),
        postDocuments := fun _ _ => some (some 1),
        wait := fun tid? => if tid? == some 1
                            then some ⟨"failed", some "missing document primary_key"⟩
                            else some ⟨"succeeded", none⟩ }
     postBatchPass1 srv "page" [[("title", DVal.str "t")]] =
       [Event.postDocuments "page" [[("title", DVal.str "t")]],
        Event.patchIndexPk "page" "id",
        Event.postDocuments "page" [[("title", DVal.str "t")]]] ∧
     (postBatchPass1 srv "alpha" [[("title", DVal.str "t")]]).countP isPostEvent ≤ 2 ∧
     postBatchPass1 srv "alpha" [[("title", DVal.str "t")]] =
       [Event.postDocuments "alpha" [[("title", DVal.str "t")]]]) := by
  refine ⟨?_, ?_, ?_⟩
  · exact ((claim4_repair_retry
      { checkIndex := fun _ => 200, deleteIndex := fun _ => none,
        createIndex := fun _ _ => some (some 0),
        patchAllSettings := fun _ _ => some (some 0),
        putSetting := fun _ _ _ => some (some 0),
        patchIndexPk := fun _ _ => some (some 2),
        postDocuments := fun _ _ => some (some 1),
        wait := fun tid? => if tid? == some 1
                            then some ⟨"failed", some "missing document primary_key"⟩
                            else some ⟨"succeeded", none⟩ }
      "page" [[("title", DVal.str "t")]] 1
      ⟨"failed", some "missing document primary_key"⟩).1
      rfl rfl rfl (by decide)).2 (some 2) rfl rfl
  · exact (claim4_repair_retry
      { checkIndex := fun _ => 200, deleteIndex := fun _ => none,
        createIndex := fun _ _ => some (some 0),
        patchAllSettings := fun _ _ => some (some 0),
        putSetting := fun _ _ _ => some (some 0),
        patchIndexPk := fun _ _ => some (some 2),
        postDocuments := fun _ _ => some (some 1),
        wait := fun tid? => if tid? == some 1
                            then some ⟨"failed", some "missing document primary_key"⟩
                            else some ⟨"succeeded", none⟩ }
      "alpha" [[("title", DVal.str "t")]] 1
      ⟨"failed", some "missing document primary_key"⟩).2.1
  · exact (claim4_repair_retry
      { checkIndex := fun _ => 200, deleteIndex := fun _ => none,
        createIndex := fun _ _ => some (some 0),
        patchAllSettings := fun _ _ => some (some 0),
        putSetting := fun _ _ _ => some (some 0),
        patchIndexPk := fun _ _ => some (some 2),
        postDocuments := fun _ _ => some (some 1),
        wait := fun tid? => if tid? == some 1
                            then some ⟨"failed", some "missing document primary_key"⟩
                            else some ⟨"succeeded", none⟩ }
      "alpha" [[("title", DVal.str "t")]] 1
      ⟨"failed", some "missing document primary_key"⟩).2.2 (by decide)

/-- Counterexample to C9 as stated: an archive in the flat convention (one
JSON file per collection plus an `all_indexes.json` aggregate, no
directory) makes restore fail with the missing-backup-directory error
rather than proceed — lines 160-168 only accept a directory whose name
contains `meilisearch_backup`. -/
theorem claim9_counterexample :
    restore_meilisearch
      { checkIndex := fun _ => 200, deleteIndex := fun _ => none,
        createIndex := fun _ _ => none, patchAllSettings := fun _ _ => none,
        putSetting := fun _ _ _ => none, patchIndexPk := fun _ _ => none,
        postDocuments := fun _ _ => none, wait := fun _ => none }
      { items := [("page.json", false), ("all_indexes.json", false)],
        archiveOf := fun _ => [] } =
      .error "Error: Could not find meilisearch_backup directory in the zip file." := rfl

/-- Claim C9 (amended): restore accepts only the directory-tree archive
convention; when no top-level item of the extracted archive is a directory
whose name contains `meilisearch_backup` — in particular for the flat
convention, whose top level consists solely of JSON files — restore fails
with the missing-backup-directory error. -/
theorem claim9_flat_archive_rejected (srv : RServer) (z : ExtractedZip)
    (h : ∀ it ∈ z.items, (it.2 && strContains it.1 "meilisearch_backup") = false) :
    restore_meilisearch srv z =
      .error "Error: Could not find meilisearch_backup directory in the zip file." := by
  have hfind : z.items.find?
      (fun it => it.2 && strContains it.1 "meilisearch_backup") = none := by
    rw [List.find?_eq_none]
    intro it hm
    simp [h it hm]
  have hbd : findBackupDir z.items = none := by
    rw [findBackupDir, hfind]
    rfl
  rw [restore_meilisearch]
  simp only [hbd]

/-- Witness for the amended C9 at a concrete flat archive. -/
theorem claim9_witness :
    restore_meilisearch
      { checkIndex := fun _ => 200, deleteIndex := fun _ => none,
        createIndex := fun _ _ => none, patchAllSettings := fun _ _ => none,
        putSetting := fun _ _ _ => none, patchIndexPk := fun _ _ => none,
        postDocuments := fun _ _ => none, wait := fun _ => none }
      { items := [("alpha.json", false), ("page.json", false),
                  ("all_indexes.json", false)],
        archiveOf := fun _ => [] } =
      .error "Error: Could not find meilisearch_backup directory in the zip file." :=
  claim9_flat_archive_rejected _ _ (by decide)

/-- Claim C10: every enumerated collection gets an archive entry keyed by
its uid whose `info.json` is the descriptor itself and whose
`documents.json` is always present (the paginator's result, possibly
empty), while `settings.json` is present exactly when the settings fetch
returned 200 — no per-collection fetch failure removes the directory or
the other two files. -/
theorem claim10_archive_shape (srv : BServer) (fuel : Nat) (idxs : List IndexInfo)
    (idx : IndexInfo) (hl : srv.indexes? = some idxs) (hm : idx ∈ idxs) :
    ∃ entries, backup_meilisearch srv fuel = some entries ∧
      ∃ e, (idx.uid, e) ∈ entries ∧ e.info = idx ∧
        e.settings?.isSome = (srv.settings idx.uid).isSome ∧
        e.documents = (paginate (srv.docsPage idx.uid) fuel).1 := by
  refine ⟨idxs.map (fun i => (i.uid, entryFor srv fuel i)), ?_, ?_⟩
  · simp only [backup_meilisearch, hl]
  · exact ⟨entryFor srv fuel idx, List.mem_map.mpr ⟨idx, hm, rfl⟩, rfl, rfl, rfl⟩

/-- Witness for C10 at a one-collection server whose settings fetch fails
and whose first document page already fails. -/
theorem claim10_witness :
    ∃ entries, backup_meilisearch
        { indexes? := some [⟨"alpha", some "id"⟩],
          settings := fun _ => none, stats := fun _ => none,
          docsPage := fun _ _ => .httpErr } 1 = some entries ∧
      ∃ e, (IndexInfo.uid ⟨"alpha", some "id"⟩, e) ∈ entries ∧
        e.info = (⟨"alpha", some "id"⟩ : IndexInfo) ∧
        e.settings?.isSome = (Option.isSome (α := Settings) none) ∧
        e.documents = (paginate (fun _ => .httpErr) 1).1 :=
  claim10_archive_shape
    { indexes? := some [⟨"alpha", some "id"⟩],
      settings := fun _ => none, stats := fun _ => none,
      docsPage := fun _ _ => .httpErr } 1 [⟨"alpha", some "id"⟩]
    ⟨"alpha", some "id"⟩ rfl (List.mem_cons_self _ _)

/-- Claim C8: a bare-array page and an envelope page over the same items
normalize to the identical document sequence; any other 200 body
normalizes to `none`; such a body mid-run stops pagination for that
collection with the earlier pages kept; and a collection's archive entry
depends only on the requests addressed to that collection, so the abort
touches no other collection. -/
theorem claim8_normalization (L : List Doc) (body : PageBody) (m fuel : Nat)
    (s1 s2 : BServer) (idx : IndexInfo) :
    (normalizePage (.jlist L) = some L ∧
     normalizePage (.jdictWithResults L) = some L) ∧
    ((∀ d, body ≠ .jlist d) → (∀ d, body ≠ .jdictWithResults d) →
      normalizePage body = none) ∧
    ((∀ d, body ≠ .jlist d) → (∀ d, body ≠ .jdictWithResults d) →
      m < fuel → 1000 * m ≤ L.length →
      paginate (serverStopAt L m (.ok body)) fuel =
        (L.take (1000 * m), (List.range (m + 1)).map (fun i => i * 1000))) ∧
    (s1.settings idx.uid = s2.settings idx.uid →
     s1.docsPage idx.uid = s2.docsPage idx.uid →
      entryFor s1 fuel idx = entryFor s2 fuel idx) := by
  have hnorm : (∀ d, body ≠ .jlist d) → (∀ d, body ≠ .jdictWithResults d) →
      normalizePage body = none := by
    intro h1 h2
    cases body with
    | jlist d => exact absurd rfl (h1 d)
    | jdictWithResults d => exact absurd rfl (h2 d)
    | jdictNoResults => rfl
    | jother => rfl
    | badJson => rfl
  refine ⟨⟨rfl, rfl⟩, hnorm, ?_, ?_⟩
  · intro h1 h2 hf hml
    exact paginate_serverStopAt L m (.ok body) (hnorm h1 h2) fuel hf hml
  · intro hs hd
    simp only [entryFor, hs, hd]

/-- Witness for C8 at a dict-without-results body and a pair of servers
agreeing on one collection. -/
theorem claim8_witness :
    normalizePage .jdictNoResults = none ∧
    paginate (serverStopAt [] 0 (.ok .jdictNoResults)) 1 =
      (List.take (1000 * 0) [], (List.range (0 + 1)).map (fun i => i * 1000)) ∧
    entryFor { indexes? := none, settings := fun _ => none, stats := fun _ => none,
               docsPage := fun _ _ => .httpErr } 1 ⟨"alpha", none⟩ =
      entryFor { indexes? := some [], settings := fun _ => none, stats := fun _ => some 3,
                 docsPage := fun _ _ => .httpErr } 1 ⟨"alpha", none⟩ := by
  refine ⟨?_, ?_, ?_⟩
  · exact (claim8_normalization [] .jdictNoResults 0 1
      { indexes? := none, settings := fun _ => none, stats := fun _ => none,
        docsPage := fun _ _ => .httpErr }
      { indexes? := some [], settings := fun _ => none, stats := fun _ => some 3,
        docsPage := fun _ _ => .httpErr } ⟨"alpha", none⟩).2.1
      (fun d h => by cases h) (fun d h => by cases h)
  · exact (claim8_normalization [] .jdictNoResults 0 1
      { indexes? := none, settings := fun _ => none, stats := fun _ => none,
        docsPage := fun _ _ => .httpErr }
      { indexes? := some [], settings := fun _ => none, stats := fun _ => some 3,
        docsPage := fun _ _ => .httpErr } ⟨"alpha", none⟩).2.2.1
      (fun d h => by cases h) (fun d h => by cases h) (by decide) (by decide)
  · exact (claim8_normalization [] .jdictNoResults 0 1
      { indexes? := none, settings := fun _ => none, stats := fun _ => none,
        docsPage := fun _ _ => .httpErr }
      { indexes? := some [], settings := fun _ => none, stats := fun _ => some 3,
        docsPage := fun _ _ => .httpErr } ⟨"alpha", none⟩).2.2.2 rfl rfl

/-- Claim C1: against a well-behaved service the paginator requests
offsets 0, 1000, 2000, ... with limit 1000 and returns the ordered
concatenation of all pages, stopping exactly after the first empty or
short page; when the service fails (or answers an unrecognized body) at
page `m`, the earlier pages are kept; and the backup writes exactly the
paginator's result into the collection's `documents.json`. -/
theorem claim1_paginator (L : List Doc) (fuel m : Nat) (b : PageResp)
    (srv : BServer) (idxs : List IndexInfo) (idx : IndexInfo) :
    (L.length / 1000 < fuel →
      paginate (serverOf L) fuel =
        (L, (List.range (L.length / 1000 + 1)).map (fun i => i * 1000))) ∧
    (stopsResp b → m < fuel → 1000 * m ≤ L.length →
      paginate (serverStopAt L m b) fuel =
        (L.take (1000 * m), (List.range (m + 1)).map (fun i => i * 1000))) ∧
    (srv.indexes? = some idxs → idx ∈ idxs →
      ∃ entries e, backup_meilisearch srv fuel = some entries ∧
        (idx.uid, e) ∈ entries ∧
        e.documents = (paginate (srv.docsPage idx.uid) fuel).1) := by
  refine ⟨paginate_serverOf L fuel,
    fun hb hf hml => paginate_serverStopAt L m b hb fuel hf hml, ?_⟩
  intro hl hm
  refine ⟨idxs.map (fun i => (i.uid, entryFor srv fuel i)), entryFor srv fuel idx,
    ?_, List.mem_map.mpr ⟨idx, hm, rfl⟩, rfl⟩
  simp only [backup_meilisearch, hl]

/-- Witness for C1 at concrete inputs: a three-document collection (one
short page at offset 0), a service failing at the very first page (the
empty prefix is kept), and a concrete backup server. -/
theorem claim1_witness :
    paginate (serverOf [[("a", DVal.null)], [("b", DVal.null)], [("c", DVal.null)]]) 1 =
      ([[("a", DVal.null)], [("b", DVal.null)], [("c", DVal.null)]],
       (List.range
         ([[("a", DVal.null)], [("b", DVal.null)], [("c", DVal.null)]].length / 1000 + 1)).map
         (fun i => i * 1000)) ∧
    paginate (serverStopAt [[("a", DVal.null)]] 0 .httpErr) 1 =
      ([[("a", DVal.null)]].take (1000 * 0), (List.range (0 + 1)).map (fun i => i * 1000)) ∧
    (∃ entries e, backup_meilisearch
        { indexes? := some [⟨"alpha", none⟩], settings := fun _ => none,
          stats := fun _ => none, docsPage := fun _ _ => .ok (.jlist []) } 1 =
        some entries ∧
      (IndexInfo.uid ⟨"alpha", none⟩, e) ∈ entries ∧
      e.documents = (paginate ((fun _ (_ : Nat) => PageResp.ok (.jlist []))
        (IndexInfo.uid ⟨"alpha", none⟩)) 1).1) := by
  refine ⟨?_, ?_, ?_⟩
  · exact (claim1_paginator
      [[("a", DVal.null)], [("b", DVal.null)], [("c", DVal.null)]] 1 0 .httpErr
      { indexes? := none, settings := fun _ => none, stats := fun _ => none,
        docsPage := fun _ _ => .httpErr } [] ⟨"alpha", none⟩).1 (by decide)
  · exact (claim1_paginator [[("a", DVal.null)]] 1 0 .httpErr
      { indexes? := none, settings := fun _ => none, stats := fun _ => none,
        docsPage := fun _ _ => .httpErr } [] ⟨"alpha", none⟩).2.1
      trivial (by decide) (by decide)
  · exact (claim1_paginator [] 1 0 .httpErr
      { indexes? := some [⟨"alpha", none⟩], settings := fun _ => none,
        stats := fun _ => none, docsPage := fun _ _ => .ok (.jlist []) }
      [⟨"alpha", none⟩] ⟨"alpha", none⟩).2.2 rfl (List.mem_cons_self _ _)

/-- Claim C3: per-collection and per-batch failures are contained while
exactly the two designated failures are fatal.  (a) a non-200 collection
listing aborts the whole backup; (b) otherwise every listed collection
yields an archive entry, whatever its own fetches do; (c) restore pass 1
visits every collection directory regardless of any oracle outcomes;
(d) once an existing ordinary collection reaches document upload, every
batch is posted regardless of earlier batches' outcomes; (e) a failure to
delete the reserved `documents` collection ends the whole restore right
after the delete request; (f) a failure to recreate it ends the restore
right after the create request. -/
theorem claim3_error_containment
    (bsrv : BServer) (fuel : Nat) (idxs : List IndexInfo) (idx : IndexInfo)
    (srv : RServer) (archive : List (String × ArchiveEntry))
    (uid : String) (e : ArchiveEntry) (docs : List Doc)
    (z : ExtractedZip) (d : String) (de : ArchiveEntry) :
    (bsrv.indexes? = none → backup_meilisearch bsrv fuel = none) ∧
    (bsrv.indexes? = some idxs → idx ∈ idxs →
      ∃ entries, backup_meilisearch bsrv fuel = some entries ∧
        ∃ be, (idx.uid, be) ∈ entries) ∧
    ((uid, e) ∈ archive → Event.processIndex uid ∈ restorePass1 srv archive) ∧
    (uid ≠ "documents" → uid ≠ "page" → srv.checkIndex uid ≠ 404 →
      e.docs? = some docs →
      ∀ batch ∈ chunksOf 1000 docs,
        Event.postDocuments uid batch ∈ restoreIndexPass1 srv uid e) ∧
    (findBackupDir z.items = some d →
      lookupEntry (z.archiveOf d) "documents" = some de →
      srv.checkIndex "documents" = 200 →
      srv.deleteIndex "documents" = none →
      restore_meilisearch srv z =
        .ok (restorePass1 srv (z.archiveOf d) ++
             [Event.checkIndex "documents", Event.deleteIndex "documents"])) ∧
    (srv.checkIndex "documents" ≠ 200 →
      srv.createIndex "documents" (pass2Pk de) = none →
      restorePass2 srv (some de) =
        [Event.checkIndex "documents", Event.createIndex "documents" (pass2Pk de)]) := by
  refine ⟨?_, ?_, fun h => mem_restorePass1 srv archive uid e h, ?_, ?_, ?_⟩
  · intro h
    simp only [backup_meilisearch, h]
  · intro hl hm
    refine ⟨idxs.map (fun i => (i.uid, entryFor bsrv fuel i)), ?_,
      entryFor bsrv fuel idx, List.mem_map.mpr ⟨idx, hm, rfl⟩⟩
    simp only [backup_meilisearch, hl]
  · intro hnd hnp hchk hdocs batch hb
    have hnd' : (uid == "documents") = false := beq_eq_false_iff_ne.mpr hnd
    have hnp' : (uid == "page") = false := beq_eq_false_iff_ne.mpr hnp
    have hchk' : (srv.checkIndex uid == 404) = false := by
      rw [beq_eq_false_iff_ne]; exact hchk
    have hdne : docs.isEmpty = false := by
      cases docs with
      | nil => rw [chunksOf] at hb; simp at hb
      | cons a as => rfl
    rw [restoreIndexPass1]
    apply List.mem_cons_of_mem
    rw [if_neg (by simp [hnd'])]
    apply List.mem_cons_of_mem
    rw [if_neg (by simp [hnp'])]
    rw [pass1AfterCheck, if_neg (by simp [hchk'])]
    rw [pass1SettingsDocs, List.mem_append]
    right
    rw [hdocs, restoreDocsPass1]
    rw [if_neg (by simp [hdne])]
    simp only [hnp', Bool.false_eq_true, if_false]
    rw [List.mem_flatMap]
    exact ⟨batch, hb, List.mem_cons_self _ _⟩
  · intro hfd hle hchk hdel
    have hchk' : (srv.checkIndex "documents" == 200) = true := by
      rw [beq_iff_eq]; exact hchk
    have hpass2 : restorePass2 srv (some de) =
        [Event.checkIndex "documents", Event.deleteIndex "documents"] := by
      rw [restorePass2]
      rw [if_pos hchk']
      simp only [hdel]
    rw [restore_meilisearch]
    simp only [hfd, hle, hpass2]
  · intro hchk hcr
    have hchk' : (srv.checkIndex "documents" == 200) = false := by
      rw [beq_eq_false_iff_ne]; exact hchk
    rw [restorePass2]
    rw [if_neg (by simp [hchk'])]
    rw [pass2Create]
    simp only [hcr]

/-- Witness for C3 at concrete servers and archives. -/
theorem claim3_witness :
    (backup_meilisearch
      { indexes? := none, settings := fun _ => none, stats := fun _ => none,
        docsPage := fun _ _ => .httpErr } 1 = none) ∧
    (∃ entries, backup_meilisearch
        { indexes? := some [⟨"alpha", none⟩], settings := fun _ => none,
          stats := fun _ => none, docsPage := fun _ _ => .httpErr } 1 = some entries ∧
      ∃ be, (IndexInfo.uid ⟨"alpha", none⟩, be) ∈ entries) ∧
    (Event.processIndex "alpha" ∈ restorePass1
      { checkIndex := fun _ => 500, deleteIndex := fun _ => none,
        createIndex := fun _ _ => none, patchAllSettings := fun _ _ => none,
        putSetting := fun _ _ _ => none, patchIndexPk := fun _ _ => none,
        postDocuments := fun _ _ => none, wait := fun _ => none }
      [("alpha", { info? := none, settings? := none, docs? := none })]) ∧
    (∀ batch ∈ chunksOf 1000 [[("a", DVal.null)]],
      Event.postDocuments "alpha" batch ∈ restoreIndexPass1
        { checkIndex := fun _ => 200, deleteIndex := fun _ => none,
          createIndex := fun _ _ => none, patchAllSettings := fun _ _ => none,
          putSetting := fun _ _ _ => none, patchIndexPk := fun _ _ => none,
          postDocuments := fun _ _ => none, wait := fun _ => none }
        "alpha" { info? := none, settings? := none, docs? := some [[("a", DVal.null)]] }) ∧
    (restore_meilisearch
      { checkIndex := fun _ => 200, deleteIndex := fun _ => none,
        createIndex := fun _ _ => none, patchAllSettings := fun _ _ => none,
        putSetting := fun _ _ _ => none, patchIndexPk := fun _ _ => none,
        postDocuments := fun _ _ => none, wait := fun _ => none }
      { items := [("meilisearch_backup", true)],
        archiveOf := fun _ =>
          [("documents", { info? := none, settings? := none, docs? := none })] } =
      .ok (restorePass1
            { checkIndex := fun _ => 200, deleteIndex := fun _ => none,
              createIndex := fun _ _ => none, patchAllSettings := fun _ _ => none,
              putSetting := fun _ _ _ => none, patchIndexPk := fun _ _ => none,
              postDocuments := fun _ _ => none, wait := fun _ => none }
            [("documents", { info? := none, settings? := none, docs? := none })] ++
           [Event.checkIndex "documents", Event.deleteIndex "documents"])) ∧
    (restorePass2
      { checkIndex := fun _ => 404, deleteIndex := fun _ => none,
        createIndex := fun _ _ => none, patchAllSettings := fun _ _ => none,
        putSetting := fun _ _ _ => none, patchIndexPk := fun _ _ => none,
        postDocuments := fun _ _ => none, wait := fun _ => none }
      (some { info? := none, settings? := none, docs? := none }) =
      [Event.checkIndex "documents",
       Event.createIndex "documents"
         (pass2Pk { info? := none, settings? := none, docs? := none })]) := by
  refine ⟨?_, ?_, ?_, ?_, ?_, ?_⟩
  · exact (claim3_error_containment
      { indexes? := none, settings := fun _ => none, stats := fun _ => none,
        docsPage := fun _ _ => .httpErr } 1 [] ⟨"alpha", none⟩
      { checkIndex := fun _ => 500, deleteIndex := fun _ => none,
        createIndex := fun _ _ => none, patchAllSettings := fun _ _ => none,
        putSetting := fun _ _ _ => none, patchIndexPk := fun _ _ => none,
        postDocuments := fun _ _ => none, wait := fun _ => none }
      [] "alpha" { info? := none, settings? := none, docs? := none } []
      { items := [], archiveOf := fun _ => [] } "x"
      { info? := none, settings? := none, docs? := none }).1 rfl
  · exact (claim3_error_containment
      { indexes? := some [⟨"alpha", none⟩], settings := fun _ => none,
        stats := fun _ => none, docsPage := fun _ _ => .httpErr } 1
      [⟨"alpha", none⟩] ⟨"alpha", none⟩
      { checkIndex := fun _ => 500, deleteIndex := fun _ => none,
        createIndex := fun _ _ => none, patchAllSettings := fun _ _ => none,
        putSetting := fun _ _ _ => none, patchIndexPk := fun _ _ => none,
        postDocuments := fun _ _ => none, wait := fun _ => none }
      [] "alpha" { info? := none, settings? := none, docs? := none } []
      { items := [], archiveOf := fun _ => [] } "x"
      { info? := none, settings? := none, docs? := none }).2.1 rfl
      (List.mem_cons_self _ _)
  · exact (claim3_error_containment
      { indexes? := none, settings := fun _ => none, stats := fun _ => none,
        docsPage := fun _ _ => .httpErr } 1 [] ⟨"alpha", none⟩
      { checkIndex := fun _ => 500, deleteIndex := fun _ => none,
        createIndex := fun _ _ => none, patchAllSettings := fun _ _ => none,
        putSetting := fun _ _ _ => none, patchIndexPk := fun _ _ => none,
        postDocuments := fun _ _ => none, wait := fun _ => none }
      [("alpha", { info? := none, settings? := none, docs? := none })]
      "alpha" { info? := none, settings? := none, docs? := none } []
      { items := [], archiveOf := fun _ => [] } "x"
      { info? := none, settings? := none, docs? := none }).2.2.1
      (List.mem_cons_self _ _)
  · exact (claim3_error_containment
      { indexes? := none, settings := fun _ => none, stats := fun _ => none,
        docsPage := fun _ _ => .httpErr } 1 [] ⟨"alpha", none⟩
      { checkIndex := fun _ => 200, deleteIndex := fun _ => none,
        createIndex := fun _ _ => none, patchAllSettings := fun _ _ => none,
        putSetting := fun _ _ _ => none, patchIndexPk := fun _ _ => none,
        postDocuments := fun _ _ => none, wait := fun _ => none }
      [] "alpha"
      { info? := none, settings? := none, docs? := some [[("a", DVal.null)]] }
      [[("a", DVal.null)]]
      { items := [], archiveOf := fun _ => [] } "x"
      { info? := none, settings? := none, docs? := none }).2.2.2.1
      (by decide) (by decide) (by decide) rfl
  · exact (claim3_error_containment
      { indexes? := none, settings := fun _ => none, stats := fun _ => none,
        docsPage := fun _ _ => .httpErr } 1 [] ⟨"alpha", none⟩
      { checkIndex := fun _ => 200, deleteIndex := fun _ => none,
        createIndex := fun _ _ => none, patchAllSettings := fun _ _ => none,
        putSetting := fun _ _ _ => none, patchIndexPk := fun _ _ => none,
        postDocuments := fun _ _ => none, wait := fun _ => none }
      [] "alpha" { info? := none, settings? := none, docs? := none } []
      { items := [("meilisearch_backup", true)],
        archiveOf := fun _ =>
          [("documents", { info? := none, settings? := none, docs? := none })] }
      "meilisearch_backup"
      { info? := none, settings? := none, docs? := none }).2.2.2.2.1
      (by decide) rfl rfl rfl
  · exact (claim3_error_containment
      { indexes? := none, settings := fun _ => none, stats := fun _ => none,
        docsPage := fun _ _ => .httpErr } 1 [] ⟨"alpha", none⟩
      { checkIndex := fun _ => 404, deleteIndex := fun _ => none,
        createIndex := fun _ _ => none, patchAllSettings := fun _ _ => none,
        putSetting := fun _ _ _ => none, patchIndexPk := fun _ _ => none,
        postDocuments := fun _ _ => none, wait := fun _ => none }
      [] "alpha" { info? := none, settings? := none, docs? := none } []
      { items := [], archiveOf := fun _ => [] } "x"
      { info? := none, settings? := none, docs? := none }).2.2.2.2.2
      (by decide) rfl

end Dochub
